import Mathlib

/-
Verification development for the resilient fetch layer and adaptive hidden-ID
scanner of the vendor-scanner repository.

Shallow embedding conventions:
- Python `int` is modelled as `Int` (arbitrary precision in both languages).
- `time.time()` values and other float-valued durations are modelled as `Int`
  instants/amounts: the code only adds and compares these quantities, so any
  linearly ordered additive model captures exactly the control flow the claims
  are about, and integer instants keep every definition kernel-executable.
- Python `dict[str, T]` caches are modelled as functions `String → Option T`
  (for the per-domain caches) or as association lists with unique keys (for a
  cookie jar whose iteration order matters for header production).
- Python `str.lower` / `str.strip` / substring tests are modelled by
  executable character-list functions below (the markers involved are ASCII).
- Logging calls are omitted: they do not affect any state or return value.
-/

/-- Model of Python `str.lower` on one character (ASCII range, which covers
every marker string the code compares against). -/
def lowerChar (c : Char) : Char :=
  if 65 ≤ c.toNat ∧ c.toNat ≤ 90 then Char.ofNat (c.toNat + 32) else c

/-- Model of Python `str.lower`. -/
def lowerStr (s : String) : String := ⟨s.data.map lowerChar⟩

/-- Whether the first list is a prefix of the second (Boolean, executable). -/
def isPrefixL : List Char → List Char → Bool
  | [], _ => true
  | _ :: _, [] => false
  | a :: as, b :: bs => a == b && isPrefixL as bs

/-- Whether `needle` occurs as a contiguous sublist of `hay`. -/
def containsL : List Char → List Char → Bool
  | hay, needle =>
    isPrefixL needle hay ||
      match hay with
      | [] => false
      | _ :: t => containsL t needle

/-- Model of Python `needle in hay` on strings. -/
def strContains (hay needle : String) : Bool := containsL hay.data needle.data

/-- Characters removed by Python `str.strip()` with no argument. -/
def isPySpace (c : Char) : Bool :=
  c == ' ' || c == '\t' || c == '\n' || c == '\r' || c == '\x0b' || c == '\x0c'

/-- Model of Python `str.strip()`. -/
def pyStrip (s : String) : String :=
  ⟨((s.data.dropWhile isPySpace).reverse.dropWhile isPySpace).reverse⟩

/-- Model of Python `s.endswith(suffix)`. -/
def pyEndsWith (s suffix : String) : Bool :=
  isPrefixL suffix.data.reverse s.data.reverse

/-
Embedding of src/src/hidden_scanner/scan_control.py (`AdaptiveScanController`).
The dataclass fields `current_max`, `cursor`, `highest_new_id`,
`last_processed_id`, `inactive_streak`, `stop_reason` are `init=False`; the
constructor clamps the six caller-supplied parameters in `__post_init__`.
-/

structure AdaptiveScanController where
  hard_max : Int
  initial_floor : Int
  tail_window : Int
  learned_high : Int
  inactive_streak_limit : Int
  start_id : Int
  current_max : Int
  cursor : Int
  highest_new_id : Int
  last_processed_id : Int
  inactive_streak : Int
  stop_reason : String
deriving DecidableEq

/-- Constructor plus `__post_init__` of `AdaptiveScanController`. -/
def mkAdaptiveScanController (hard_max initial_floor tail_window learned_high
    inactive_streak_limit start_id : Int) : AdaptiveScanController :=
  let hm := max 0 hard_max
  let fl := max 0 initial_floor
  let tw := max 1 tail_window
  let lh := max 0 learned_high
  let isl := max 8 inactive_streak_limit
  let sid := max 0 start_id
  let initial_max := max fl (lh + tw)
  { hard_max := hm
    initial_floor := fl
    tail_window := tw
    learned_high := lh
    inactive_streak_limit := isl
    start_id := sid
    current_max := min hm initial_max
    cursor := sid
    highest_new_id := -1
    last_processed_id := -1
    inactive_streak := 0
    stop_reason := "" }

/-- Property `should_stop`: `bool(self.stop_reason)`. -/
def shouldStop (c : AdaptiveScanController) : Bool := c.stop_reason ≠ ""

/-- The list `list(range(start, end + 1))`. -/
def intRange (start stop : Int) : List Int :=
  (List.range (stop + 1 - start).toNat).map (fun k => start + k)

/-- Method `next_batch`: returns the batch and the updated controller. -/
def next_batch (c : AdaptiveScanController) (batch_size : Int) :
    List Int × AdaptiveScanController :=
  if shouldStop c ∨ c.cursor > c.current_max then ([], c)
  else
    let size := max 1 batch_size
    let start := c.cursor
    let e := min c.current_max (start + size - 1)
    (intRange start e, { c with cursor := e + 1 })

/-- Method `mark(item_id, is_new_discovery)`: returns the stop flag and the
updated controller. -/
def mark (c : AdaptiveScanController) (item_id : Int) (is_new_discovery : Bool) :
    Bool × AdaptiveScanController :=
  let c1 : AdaptiveScanController :=
    { c with last_processed_id := max c.last_processed_id item_id }
  let c2 : AdaptiveScanController :=
    if is_new_discovery then
      let ca : AdaptiveScanController := { c1 with inactive_streak := 0 }
      let cb : AdaptiveScanController :=
        if item_id > ca.highest_new_id then { ca with highest_new_id := item_id } else ca
      let target_max := min cb.hard_max (cb.highest_new_id + cb.tail_window)
      if target_max > cb.current_max then { cb with current_max := target_max } else cb
    else
      { c1 with inactive_streak := c1.inactive_streak + 1 }
  if c2.initial_floor ≤ item_id ∧ c2.inactive_streak_limit ≤ c2.inactive_streak ∧
      (c2.highest_new_id < 0 ∨ c2.highest_new_id ≤ item_id) then
    (true,
      { c2 with
        stop_reason :=
          "inactive-streak=" ++ toString c2.inactive_streak ++ " floor=" ++
            toString c2.initial_floor ++ " highest_new=" ++ toString c2.highest_new_id })
  else
    (false, c2)

/-- Folding a sequence of `mark` calls over a controller. -/
def runMarks (c : AdaptiveScanController) (calls : List (Int × Bool)) :
    AdaptiveScanController :=
  calls.foldl (fun c p => (mark c p.1 p.2).2) c

lemma mark_hard_max (c : AdaptiveScanController) (i : Int) (b : Bool) :
    (mark c i b).2.hard_max = c.hard_max := by
  simp only [mark]
  split_ifs <;> simp

lemma mark_inactive_streak_limit (c : AdaptiveScanController) (i : Int) (b : Bool) :
    (mark c i b).2.inactive_streak_limit = c.inactive_streak_limit := by
  simp only [mark]
  split_ifs <;> simp

lemma next_batch_inactive_streak_limit (c : AdaptiveScanController) (n : Int) :
    (next_batch c n).2.inactive_streak_limit = c.inactive_streak_limit := by
  unfold next_batch
  split <;> rfl

lemma mark_current_max_mono (c : AdaptiveScanController) (i : Int) (b : Bool) :
    c.current_max ≤ (mark c i b).2.current_max := by
  simp only [mark]
  split_ifs <;> first
    | omega
    | (simp_all; omega)
    | simp_all

lemma mark_current_max_le_hard (c : AdaptiveScanController) (i : Int) (b : Bool)
    (h : c.current_max ≤ c.hard_max) :
    (mark c i b).2.current_max ≤ (mark c i b).2.hard_max := by
  rw [mark_hard_max]
  simp only [mark]
  split_ifs <;> first
    | omega
    | (simp_all; omega)
    | simp_all

lemma mk_current_max_le_hard (hm fl tw lh isl sid : Int) :
    (mkAdaptiveScanController hm fl tw lh isl sid).current_max ≤
      (mkAdaptiveScanController hm fl tw lh isl sid).hard_max := by
  unfold mkAdaptiveScanController
  dsimp only
  exact min_le_left _ _

lemma runMarks_hard_max (c : AdaptiveScanController) (calls : List (Int × Bool)) :
    (runMarks c calls).hard_max = c.hard_max := by
  induction calls generalizing c with
  | nil => rfl
  | cons p t ih =>
    simp only [runMarks, List.foldl_cons] at *
    rw [ih, mark_hard_max]

lemma runMarks_current_max_le_hard (c : AdaptiveScanController)
    (calls : List (Int × Bool)) (h : c.current_max ≤ c.hard_max) :
    (runMarks c calls).current_max ≤ (runMarks c calls).hard_max := by
  induction calls generalizing c with
  | nil => simpa [runMarks] using h
  | cons p t ih =>
    simp only [runMarks, List.foldl_cons] at *
    exact ih _ (mark_current_max_le_hard _ _ _ h)

/-- C2: along any sequence of `mark` calls on a constructed controller,
`current_max` never decreases at any step and stays at most `hard_max` after
every call (it also starts at most `hard_max`). -/
theorem adaptive_current_max_monotone_and_bounded
    (hm fl tw lh isl sid : Int) (calls : List (Int × Bool)) (i : Int) (b : Bool) :
    (runMarks (mkAdaptiveScanController hm fl tw lh isl sid) calls).current_max ≤
      (mark (runMarks (mkAdaptiveScanController hm fl tw lh isl sid) calls) i b).2.current_max ∧
    (runMarks (mkAdaptiveScanController hm fl tw lh isl sid) calls).current_max ≤
      (mkAdaptiveScanController hm fl tw lh isl sid).hard_max ∧
    (mark (runMarks (mkAdaptiveScanController hm fl tw lh isl sid) calls) i b).2.current_max ≤
      (mkAdaptiveScanController hm fl tw lh isl sid).hard_max := by
  have hbound := runMarks_current_max_le_hard _ calls (mk_current_max_le_hard hm fl tw lh isl sid)
  have hhm := runMarks_hard_max (mkAdaptiveScanController hm fl tw lh isl sid) calls
  refine ⟨mark_current_max_mono _ i b, ?_, ?_⟩
  · rw [← hhm]; exact hbound
  · have h2 := mark_current_max_le_hard _ i b hbound
    rw [mark_hard_max, hhm] at h2
    exact h2

/-- The inductive family of controller states reachable from some construction
through any interleaving of `mark` and `next_batch` calls. -/
inductive ReachableCtrl : AdaptiveScanController → Prop
  | init (hm fl tw lh isl sid : Int) :
      ReachableCtrl (mkAdaptiveScanController hm fl tw lh isl sid)
  | step_mark (c : AdaptiveScanController) (i : Int) (b : Bool) :
      ReachableCtrl c → ReachableCtrl (mark c i b).2
  | step_batch (c : AdaptiveScanController) (n : Int) :
      ReachableCtrl c → ReachableCtrl (next_batch c n).2

/-- C10: `__post_init__` clamps every constructor parameter (`hard_max`,
`initial_floor`, `learned_high`, `start_id` to at least 0, `tail_window` to at
least 1, `inactive_streak_limit` to at least 8), and consequently every
reachable controller state has an effective inactive-streak threshold of at
least 8 even when the caller configured a smaller value. -/
theorem adaptive_constructor_clamps_and_streak_limit_floor :
    (∀ hm fl tw lh isl sid : Int,
      (mkAdaptiveScanController hm fl tw lh isl sid).hard_max = max 0 hm ∧
      (mkAdaptiveScanController hm fl tw lh isl sid).initial_floor = max 0 fl ∧
      (mkAdaptiveScanController hm fl tw lh isl sid).tail_window = max 1 tw ∧
      (mkAdaptiveScanController hm fl tw lh isl sid).learned_high = max 0 lh ∧
      (mkAdaptiveScanController hm fl tw lh isl sid).inactive_streak_limit = max 8 isl ∧
      (mkAdaptiveScanController hm fl tw lh isl sid).start_id = max 0 sid) ∧
    (∀ c : AdaptiveScanController, ReachableCtrl c → 8 ≤ c.inactive_streak_limit) := by
  constructor
  · intro hm fl tw lh isl sid
    refine ⟨rfl, rfl, rfl, rfl, rfl, rfl⟩
  · intro c h
    induction h with
    | init hm fl tw lh isl sid =>
      have : (mkAdaptiveScanController hm fl tw lh isl sid).inactive_streak_limit =
          max 8 isl := rfl
      rw [this]
      exact le_max_left _ _
    | step_mark c i b _ ih => rw [mark_inactive_streak_limit]; exact ih
    | step_batch c n _ ih => rw [next_batch_inactive_streak_limit]; exact ih

/-- Witness for C10: instantiating the reachability invariant at a concrete
constructed controller (configured limit 3, clamped to 8). -/
theorem adaptive_constructor_clamps_and_streak_limit_floor_witness :
    8 ≤ (mkAdaptiveScanController 100 10 5 0 3 0).inactive_streak_limit :=
  adaptive_constructor_clamps_and_streak_limit_floor.2 _
    (ReachableCtrl.init 100 10 5 0 3 0)

/-- C8: with `hardMax=120, initialFloor=20, tailWindow=10, learnedHigh=0`
(defaults for the remaining parameters), the initial `current_max` is 20 and a
single `mark(19, true)` raises it to 29. -/
theorem adaptive_scenario_initial_20_then_29 :
    (mkAdaptiveScanController 120 20 10 0 60 0).current_max = 20 ∧
    (mark (mkAdaptiveScanController 120 20 10 0 60 0) 19 true).2.current_max = 29 := by
  constructor <;> rfl

/-- Concrete controller for the inactive-streak scenario: constructed with
`inactive_streak_limit = 6` (which `__post_init__` raises to 8). -/
def streakScenarioCtrl : AdaptiveScanController :=
  mkAdaptiveScanController 120 20 10 0 6 0

/-- C4 counterexample: with `inactiveStreakLimit=6` and six consecutive misses
at IDs at or above `initial_floor` (20, ..., 25), the sixth `mark` still
returns `false`, `stop_reason` is still empty, and `next_batch` still returns
a non-empty batch — the claim that six misses suffice is false, because the
constructor clamps the limit up to 8. -/
theorem adaptive_six_misses_do_not_stop :
    (mark (runMarks streakScenarioCtrl
        [(20, false), (21, false), (22, false), (23, false), (24, false)]) 25 false).1
      = false ∧
    (runMarks streakScenarioCtrl
        [(20, false), (21, false), (22, false), (23, false), (24, false), (25, false)]).stop_reason
      = "" ∧
    (next_batch (runMarks streakScenarioCtrl
        [(20, false), (21, false), (22, false), (23, false), (24, false), (25, false)]) 3).1
      = [0, 1, 2] := by
  refine ⟨rfl, rfl, ?_⟩
  decide

/-- C4 amended: with `inactiveStreakLimit=6` — clamped to 8 by the constructor —
and no discoveries ever reported, after 8 (not 6) consecutive misses at IDs at
or above `initial_floor` the `mark` call returns `true`, `stop_reason`
contains "inactive-streak", and `next_batch` returns the empty list. -/
theorem adaptive_eight_misses_stop :
    (mark (runMarks streakScenarioCtrl
        [(20, false), (21, false), (22, false), (23, false), (24, false), (25, false),
          (26, false)]) 27 false).1 = true ∧
    strContains (mark (runMarks streakScenarioCtrl
        [(20, false), (21, false), (22, false), (23, false), (24, false), (25, false),
          (26, false)]) 27 false).2.stop_reason "inactive-streak" = true ∧
    (next_batch (mark (runMarks streakScenarioCtrl
        [(20, false), (21, false), (22, false), (23, false), (24, false), (25, false),
          (26, false)]) 27 false).2 3).1 = [] := by
  refine ⟨rfl, ?_, ?_⟩ <;> decide

/-
Embedding of src/src/misc/retry_rate_limit.py (`CircuitBreaker`). The dict
`_state : dict[str, tuple[int, float]]` is modelled as a function
`String → Option (Int × Int)`; `time.time()` is passed in explicitly as `now`.
The lock only serializes access and has no sequential semantics.
-/

structure CircuitBreaker where
  failure_threshold : Int
  cooldown_seconds : Int
  state : String → Option (Int × Int)

/-- Method `CircuitBreaker.allow(domain)`: returns the decision together with
the (possibly lazily reset) breaker. -/
def breaker_allow (cb : CircuitBreaker) (domain : String) (now : Int) :
    Bool × CircuitBreaker :=
  let fo := (cb.state domain).getD (0, 0)
  if fo.1 < cb.failure_threshold then (true, cb)
  else if cb.cooldown_seconds < now - fo.2 then
    (true, { cb with state := fun d => if d = domain then some (0, 0) else cb.state d })
  else (false, cb)

/-- Method `CircuitBreaker.record_success(domain)`. -/
def breaker_record_success (cb : CircuitBreaker) (domain : String) : CircuitBreaker :=
  { cb with state := fun d => if d = domain then some (0, 0) else cb.state d }

/-- Method `CircuitBreaker.record_failure(domain)`. -/
def breaker_record_failure (cb : CircuitBreaker) (domain : String) (now : Int) :
    CircuitBreaker :=
  let fo := (cb.state domain).getD (0, 0)
  let failures := fo.1 + 1
  let opened_at :=
    if cb.failure_threshold ≤ failures ∧ fo.2 = 0 then now else fo.2
  { cb with state := fun d => if d = domain then some (failures, opened_at) else cb.state d }

/-- C5: `allow(d)` is true iff the failure count for `d` is below the
threshold or the elapsed time since the circuit opened exceeds the cooldown;
and in the latter case the circuit is lazily reset to the closed state
(failure count 0, opened-at cleared) inside `allow` itself. -/
theorem breaker_allow_iff_and_lazy_reset (cb : CircuitBreaker) (d : String) (now : Int) :
    ((breaker_allow cb d now).1 = true ↔
      ((cb.state d).getD (0, 0)).1 < cb.failure_threshold ∨
        cb.cooldown_seconds < now - ((cb.state d).getD (0, 0)).2) ∧
    (¬ ((cb.state d).getD (0, 0)).1 < cb.failure_threshold →
      cb.cooldown_seconds < now - ((cb.state d).getD (0, 0)).2 →
      (breaker_allow cb d now).2.state d = some (0, 0)) := by
  simp only [breaker_allow]
  split_ifs with h1 h2
  · exact ⟨⟨fun _ => Or.inl h1, fun _ => rfl⟩, fun hA _ => absurd h1 hA⟩
  · exact ⟨⟨fun _ => Or.inr h2, fun _ => rfl⟩, fun _ _ => by simp⟩
  · exact ⟨⟨fun h => absurd h (by simp),
      fun hAB => hAB.elim (fun hA => absurd hA h1) fun hB => absurd hB h2⟩,
      fun _ hB => absurd hB h2⟩

/-- Concrete breaker used as the witness input for C5: domain "x" has 5
failures (threshold 5) and opened its circuit at time 10 with cooldown 3. -/
def breakerW : CircuitBreaker :=
  { failure_threshold := 5
    cooldown_seconds := 3
    state := fun d => if d = "x" then some (5, 10) else none }

/-- Witness for C5: at time 20 the cooldown (3) has been exceeded
(20 - 10 > 3), so `allow` returns true and lazily resets the entry. -/
theorem breaker_allow_iff_and_lazy_reset_witness :
    (breaker_allow breakerW "x" 20).1 = true ∧
    (breaker_allow breakerW "x" 20).2.state "x" = some (0, 0) :=
  ⟨(breaker_allow_iff_and_lazy_reset breakerW "x" 20).1.mpr
      (Or.inr (by decide)),
    (breaker_allow_iff_and_lazy_reset breakerW "x" 20).2
      (by decide) (by decide)⟩

/-
Embedding of the cookie cache of src/src/misc/http_client.py
(`_cookie_domain_matches`, `_get_cached_cookie_header`, `_clear_cached_cookies`,
`_store_cookies`). `_cookies_by_domain : dict[str, tuple[dict[str, str], float]]`
is modelled as `String → Option (List (String × String) × Int)` where the inner
association list has the dict's (unique-keyed) insertion order.
-/

/-- One cookie as handed to `_store_cookies` (the dicts built from FlareSolverr
solutions or `_response_cookies`): `name`, nullable `value`, `domain`, and
`expires` when it is a positive number. -/
structure SolverCookie where
  name : String
  value : Option String
  domain : String
  expires : Option Int
deriving DecidableEq

abbrev CookieCache := String → Option (List (String × String) × Int)

/-- Python `merged.pop(name, None)`: remove the entry with the given key. -/
def dictPop : List (String × String) → String → List (String × String)
  | [], _ => []
  | p :: t, k => if p.1 = k then dictPop t k else p :: dictPop t k

/-- Python `merged[name] = value`: replace in place or append. -/
def dictSet : List (String × String) → String → String → List (String × String)
  | [], k, v => [(k, v)]
  | p :: t, k, v => if p.1 = k then (k, v) :: t else p :: dictSet t k v

/-- Python `merged.get(name)` / `name in merged`. -/
def dictGet : List (String × String) → String → Option String
  | [], _ => none
  | p :: t, k => if p.1 = k then some p.2 else dictGet t k

/-- Insertion step of sorting the cookie dict items by name (Python
`sorted(cookies.items())`; names are unique so the name decides the order). -/
def insertPair (p : String × String) : List (String × String) → List (String × String)
  | [] => [p]
  | q :: t => if compare p.1 q.1 = Ordering.gt then q :: insertPair p t else p :: q :: t

/-- Sorting the cookie dict items by name. -/
def sortPairs : List (String × String) → List (String × String)
  | [] => []
  | p :: t => insertPair p (sortPairs t)

/-- Static method `HttpClient._cookie_domain_matches`. -/
def cookie_domain_matches (request_domain cookie_domain : String) : Bool :=
  let normalized := lowerStr ⟨(pyStrip cookie_domain).data.dropWhile (fun c => c == '.')⟩
  if normalized = "" then true
  else
    let request_lower := lowerStr request_domain
    request_lower == normalized || pyEndsWith request_lower ("." ++ normalized)

/-- Method `HttpClient._get_cached_cookie_header`: returns the header (if any)
and the cache (the expired-entry branch pops the entry). -/
def get_cached_cookie_header (cookie_reuse_enabled : Bool) (cache : CookieCache)
    (domain : String) (now : Int) : Option String × CookieCache :=
  if !cookie_reuse_enabled then (none, cache)
  else
    match cache domain with
    | none => (none, cache)
    | some (cookies, expires_at) =>
      if cookies.isEmpty || expires_at ≤ now then
        (none, fun d => if d = domain then none else cache d)
      else
        (some (String.intercalate "; "
            ((sortPairs cookies).map fun p => p.1 ++ "=" ++ p.2)), cache)

/-- The body of the `for cookie in cookies` loop of `_store_cookies`, acting on
the accumulator `(merged, expires_at)`. -/
def storeStep (domain : String) (now : Int) (acc : List (String × String) × Int)
    (cookie : SolverCookie) : List (String × String) × Int :=
  let name := pyStrip cookie.name
  if name = "" then acc
  else
    let cookie_domain := lowerStr (pyStrip cookie.domain)
    if cookie_domain ≠ "" ∧ cookie_domain_matches domain cookie_domain = false then acc
    else
      match cookie.value with
      | none => (dictPop acc.1 name, acc.2)
      | some v =>
        match cookie.expires with
        | some e =>
          if 0 < e then
            if e ≤ now then (dictPop acc.1 name, acc.2)
            else (dictSet acc.1 name v, min acc.2 e)
          else (dictSet acc.1 name v, acc.2)
        | none => (dictSet acc.1 name v, acc.2)

/-- Method `HttpClient._store_cookies` (the empty-merged branch is
`_clear_cached_cookies`). -/
def store_cookies (cookie_reuse_enabled : Bool) (cookie_reuse_ttl_seconds : Int)
    (cache : CookieCache) (domain : String) (cookies : List SolverCookie)
    (now : Int) : CookieCache :=
  if !cookie_reuse_enabled || cookies.isEmpty then cache
  else
    let merged0 : List (String × String) :=
      match cache domain with
      | some (cs, cached_expires) => if now < cached_expires then cs else []
      | none => []
    let res := cookies.foldl (storeStep domain now) (merged0, now + cookie_reuse_ttl_seconds)
    if res.1.isEmpty then fun d => if d = domain then none else cache d
    else fun d => if d = domain then some (res.1, res.2) else cache d

/-- Reading an entry's cookie value out of a cache slot. -/
def entryGet : Option (List (String × String) × Int) → String → Option String
  | none, _ => none
  | some (m, _), k => dictGet m k

/-- An observable operation on the cookie cache: a `_store_cookies` call or a
`_get_cached_cookie_header` call (which can pop an expired entry). -/
inductive CookieOp
  | store (domain : String) (cookies : List SolverCookie) (now : Int)
  | header (domain : String) (now : Int)

/-- Running a sequence of cookie-cache operations. -/
def runCookieOps (enabled : Bool) (ttl : Int) : CookieCache → List CookieOp → CookieCache
  | cache, [] => cache
  | cache, CookieOp.store d cs now :: t =>
    runCookieOps enabled ttl (store_cookies enabled ttl cache d cs now) t
  | cache, CookieOp.header d now :: t =>
    runCookieOps enabled ttl (get_cached_cookie_header enabled cache d now).2 t

/-- First store of the C7 counterexample: cookie `a` with its own expiry 100,
stored at time 0 with a one-hour cache TTL. -/
def cookieCacheA : CookieCache :=
  store_cookies true 3600 (fun _ => none) "s.example"
    [{ name := "a", value := some "1", domain := "", expires := some 100 }] 0

/-- Second store of the C7 counterexample: cookie `b` without its own expiry,
stored at time 50, which resets the entry expiry to 50 + 3600. -/
def cookieCacheB : CookieCache :=
  store_cookies true 3600 cookieCacheA "s.example"
    [{ name := "b", value := some "2", domain := "", expires := none }] 50

/-- C7 counterexample: at time 200 the produced Cookie header for
`s.example` is `"a=1; b=2"` and still contains cookie `a` even though `a`'s
own expiry (100) is already in the past — the second store call reset the
entry expiry to 3650 without re-checking the old cookie's own expiry. -/
theorem cookie_expired_cookie_still_in_header :
    (get_cached_cookie_header true cookieCacheB "s.example" 200).1 = some "a=1; b=2" ∧
    strContains "a=1; b=2" "a=1" = true ∧ ((100 : Int) < 200) := by
  refine ⟨by decide, by decide, by decide⟩

lemma dictGet_dictPop_self (m : List (String × String)) (n : String) :
    dictGet (dictPop m n) n = none := by
  induction m with
  | nil => rfl
  | cons p t ih =>
    by_cases h : p.1 = n
    · simp [dictPop, h, ih]
    · simp [dictPop, dictGet, h, ih]

lemma dictGet_dictPop_other (m : List (String × String)) (k n : String) (h : k ≠ n) :
    dictGet (dictPop m k) n = dictGet m n := by
  induction m with
  | nil => rfl
  | cons p t ih =>
    by_cases hp : p.1 = k
    · have : p.1 ≠ n := by rw [hp]; exact h
      simp [dictPop, dictGet, hp, this, h, ih]
    · simp [dictPop, dictGet, hp, ih]

lemma dictGet_dictSet_other (m : List (String × String)) (k v n : String) (h : k ≠ n) :
    dictGet (dictSet m k v) n = dictGet m n := by
  induction m with
  | nil => simp [dictSet, dictGet, h]
  | cons p t ih =>
    by_cases hp : p.1 = k
    · have : p.1 ≠ n := by rw [hp]; exact h
      simp [dictSet, dictGet, hp, h, this]
    · simp [dictSet, dictGet, hp, ih]

lemma storeStep_preserves_other (domain : String) (now : Int)
    (acc : List (String × String) × Int) (c : SolverCookie) (n : String)
    (h : pyStrip c.name ≠ n) :
    dictGet (storeStep domain now acc c).1 n = dictGet acc.1 n := by
  simp only [storeStep]
  split_ifs with h1 h2
  · rfl
  · rfl
  · cases hv : c.value with
    | none => exact dictGet_dictPop_other _ _ _ h
    | some v =>
      cases he : c.expires with
      | none => exact dictGet_dictSet_other _ _ _ _ h
      | some e =>
        dsimp only
        split_ifs with h3 h4
        · exact dictGet_dictPop_other _ _ _ h
        · exact dictGet_dictSet_other _ _ _ _ h
        · exact dictGet_dictSet_other _ _ _ _ h

lemma foldl_storeStep_preserves (domain : String) (now : Int)
    (cs : List SolverCookie) (acc : List (String × String) × Int) (n : String)
    (h : ∀ c ∈ cs, pyStrip c.name ≠ n) :
    dictGet (cs.foldl (storeStep domain now) acc).1 n = dictGet acc.1 n := by
  induction cs generalizing acc with
  | nil => rfl
  | cons c t ih =>
    simp only [List.foldl_cons]
    rw [ih _ (fun c' hc' => h c' (List.mem_cons_of_mem _ hc'))]
    exact storeStep_preserves_other _ _ _ _ _ (h c (List.mem_cons_self _ _))

lemma storeStep_kills_expired (domain : String) (now : Int)
    (acc : List (String × String) × Int) (c : SolverCookie) (e : Int)
    (hname : pyStrip c.name ≠ "")
    (hdom : lowerStr (pyStrip c.domain) = "" ∨
      cookie_domain_matches domain (lowerStr (pyStrip c.domain)) = true)
    (he : c.expires = some e) (hpos : 0 < e) (hpast : e ≤ now) :
    dictGet (storeStep domain now acc c).1 (pyStrip c.name) = none := by
  unfold storeStep
  have hskip : ¬ (lowerStr (pyStrip c.domain) ≠ "" ∧
      cookie_domain_matches domain (lowerStr (pyStrip c.domain)) = false) := by
    rcases hdom with h | h
    · intro hc; exact hc.1 h
    · intro hc; rw [h] at hc; exact absurd hc.2 (by decide)
  simp only [storeStep]
  rw [if_neg hname, if_neg hskip]
  cases hv : c.value with
  | none => exact dictGet_dictPop_self _ _
  | some v =>
    rw [he]
    simp only [if_pos hpos, if_pos hpast]
    exact dictGet_dictPop_self _ _

lemma store_cookies_other_domain (enabled : Bool) (ttl : Int) (cache : CookieCache)
    (domain : String) (cs : List SolverCookie) (now : Int) (d' : String)
    (h : d' ≠ domain) :
    store_cookies enabled ttl cache domain cs now d' = cache d' := by
  simp only [store_cookies]
  split_ifs <;> simp [h]

lemma storeStep_skip (domain : String) (now : Int) (acc : List (String × String) × Int)
    (c : SolverCookie) (hne : lowerStr (pyStrip c.domain) ≠ "")
    (hmatch : cookie_domain_matches domain (lowerStr (pyStrip c.domain)) = false) :
    storeStep domain now acc c = acc := by
  simp only [storeStep]
  split_ifs with h1 h2
  · rfl
  · rfl
  · exact absurd ⟨hne, hmatch⟩ h2

lemma store_cookies_stays_none (ttl : Int) (cache : CookieCache) (domain : String)
    (cs : List SolverCookie) (now : Int) (hcache : cache domain = none)
    (hcs : ∀ c ∈ cs, lowerStr (pyStrip c.domain) ≠ "" ∧
      cookie_domain_matches domain (lowerStr (pyStrip c.domain)) = false) :
    store_cookies true ttl cache domain cs now domain = none := by
  simp only [store_cookies]
  have hfold : ∀ acc : List (String × String) × Int,
      cs.foldl (storeStep domain now) acc = acc := by
    intro acc
    induction cs generalizing acc with
    | nil => rfl
    | cons c t ih =>
      simp only [List.foldl_cons]
      rw [storeStep_skip _ _ _ _ (hcs c (List.mem_cons_self _ _)).1
        (hcs c (List.mem_cons_self _ _)).2]
      exact ih (fun c' hc' => hcs c' (List.mem_cons_of_mem _ hc')) acc
  split_ifs with h1 h2
  · exact hcache
  · simp
  · exfalso
    rw [hcache] at h2
    rw [hfold] at h2
    simp at h2

lemma header_preserves_none (enabled : Bool) (cache : CookieCache) (d : String)
    (now : Int) (b : String) (h : cache b = none) :
    (get_cached_cookie_header enabled cache d now).2 b = none := by
  simp only [get_cached_cookie_header]
  split_ifs with h1
  · exact h
  · cases hc : cache d with
    | none => exact h
    | some entry =>
      cases entry with
      | mk cs exp =>
        dsimp only
        split_ifs with h2
        · by_cases hb : b = d <;> simp [hb, h]
        · exact h

lemma runCookieOps_none_invariant (ttl : Int) (ops : List CookieOp)
    (cache : CookieCache) (hc : cache "b.example.com" = none)
    (hops : ∀ d cs tm, CookieOp.store d cs tm ∈ ops → d = "b.example.com" →
      ∀ c ∈ cs, lowerStr (pyStrip c.domain) = "a.example.com") :
    runCookieOps true ttl cache ops "b.example.com" = none := by
  induction ops generalizing cache with
  | nil => exact hc
  | cons op t ih =>
    cases op with
    | store d cs tm =>
      simp only [runCookieOps]
      refine ih _ ?_ (fun d' cs' tm' hmem => hops d' cs' tm' (List.mem_cons_of_mem _ hmem))
      by_cases hd : d = "b.example.com"
      · subst hd
        refine store_cookies_stays_none _ _ _ _ _ hc (fun c hcmem => ?_)
        have hdom := hops "b.example.com" cs tm (List.mem_cons_self _ _) rfl c hcmem
        rw [hdom]
        exact ⟨by decide, by decide⟩
      · rw [store_cookies_other_domain _ _ _ _ _ _ _ (fun hbd => hd hbd.symm)]
        exact hc
    | header d tm =>
      simp only [runCookieOps]
      refine ih _ ?_ (fun d' cs' tm' hmem => hops d' cs' tm' (List.mem_cons_of_mem _ hmem))
      exact header_preserves_none _ _ _ _ _ hc

lemma dictGet_none_keys (m : List (String × String)) (n : String)
    (h : dictGet m n = none) : ∀ p ∈ m, p.1 ≠ n := by
  induction m with
  | nil => intro p hp; cases hp
  | cons q t ih =>
    intro p hp
    by_cases hq : q.1 = n
    · simp [dictGet, hq] at h
    · simp only [dictGet, if_neg hq] at h
      cases hp with
      | head => exact hq
      | tail _ hmem => exact ih h p hmem

lemma mem_insertPair (x p : String × String) (l : List (String × String))
    (h : x ∈ insertPair p l) : x = p ∨ x ∈ l := by
  induction l with
  | nil =>
    simp only [insertPair] at h
    cases h with
    | head => exact Or.inl rfl
    | tail _ hmem => cases hmem
  | cons q t ih =>
    simp only [insertPair] at h
    split_ifs at h
    · cases h with
      | head => exact Or.inr (List.mem_cons_self _ _)
      | tail _ hmem =>
        cases ih hmem with
        | inl hx => exact Or.inl hx
        | inr hx => exact Or.inr (List.mem_cons_of_mem _ hx)
    · cases h with
      | head => exact Or.inl rfl
      | tail _ hmem => exact Or.inr hmem

lemma mem_sortPairs (x : String × String) (l : List (String × String))
    (h : x ∈ sortPairs l) : x ∈ l := by
  induction l with
  | nil => cases h
  | cons p t ih =>
    cases mem_insertPair x p (sortPairs t) h with
    | inl hx => rw [hx]; exact List.mem_cons_self _ _
    | inr hx => exact List.mem_cons_of_mem _ (ih hx)

lemma storeStep_preserves_named (domain : String) (now : Int)
    (acc : List (String × String) × Int) (c : SolverCookie) (n : String)
    (h : pyStrip c.name = n → lowerStr (pyStrip c.domain) ≠ "" ∧
      cookie_domain_matches domain (lowerStr (pyStrip c.domain)) = false) :
    dictGet (storeStep domain now acc c).1 n = dictGet acc.1 n := by
  by_cases hn : pyStrip c.name = n
  · rw [storeStep_skip _ _ _ _ (h hn).1 (h hn).2]
  · exact storeStep_preserves_other _ _ _ _ _ hn

lemma foldl_storeStep_preserves_named (domain : String) (now : Int)
    (cs : List SolverCookie) (acc : List (String × String) × Int) (n : String)
    (h : ∀ c ∈ cs, pyStrip c.name = n → lowerStr (pyStrip c.domain) ≠ "" ∧
      cookie_domain_matches domain (lowerStr (pyStrip c.domain)) = false) :
    dictGet (cs.foldl (storeStep domain now) acc).1 n = dictGet acc.1 n := by
  induction cs generalizing acc with
  | nil => rfl
  | cons c t ih =>
    simp only [List.foldl_cons]
    rw [ih _ (fun c' hc' => h c' (List.mem_cons_of_mem _ hc'))]
    exact storeStep_preserves_named _ _ _ _ _ (h c (List.mem_cons_self _ _))

lemma store_cookies_entry_none (ttl : Int) (cache : CookieCache) (domain : String)
    (cs : List SolverCookie) (now : Int) (n : String)
    (hinv : entryGet (cache domain) n = none)
    (hcs : ∀ c ∈ cs, pyStrip c.name = n → lowerStr (pyStrip c.domain) ≠ "" ∧
      cookie_domain_matches domain (lowerStr (pyStrip c.domain)) = false) :
    entryGet (store_cookies true ttl cache domain cs now domain) n = none := by
  have hm0 : dictGet
      (match cache domain with
        | some (cs0, cached_expires) => if now < cached_expires then cs0 else []
        | none => ([] : List (String × String))) n = none := by
    cases hc : cache domain with
    | none => rfl
    | some entry =>
      cases entry with
      | mk m e0 =>
        rw [hc] at hinv
        dsimp only
        split_ifs
        · exact hinv
        · rfl
  simp only [store_cookies]
  split_ifs with h1 h2
  · exact hinv
  · dsimp only
    rw [if_pos rfl]
    rfl
  · dsimp only
    rw [if_pos rfl]
    show dictGet (cs.foldl (storeStep domain now) _).1 n = none
    rw [foldl_storeStep_preserves_named _ _ _ _ _ hcs]
    exact hm0

lemma header_snd_entry_none (enabled : Bool) (cache : CookieCache) (d : String)
    (t : Int) (b : String) (n : String) (h : entryGet (cache b) n = none) :
    entryGet ((get_cached_cookie_header enabled cache d t).2 b) n = none := by
  simp only [get_cached_cookie_header]
  split_ifs with h1
  · exact h
  · cases hc : cache d with
    | none => exact h
    | some entry =>
      cases entry with
      | mk m e0 =>
        dsimp only
        split_ifs with h2
        · dsimp only
          by_cases hb : b = d
          · rw [if_pos hb]
            rfl
          · rw [if_neg hb]
            exact h
        · exact h

lemma runCookieOps_entry_none (ttl : Int) (n : String) (ops : List CookieOp)
    (cache : CookieCache) (hc : entryGet (cache "b.example.com") n = none)
    (hops : ∀ d cs tm, CookieOp.store d cs tm ∈ ops → d = "b.example.com" →
      ∀ c ∈ cs, pyStrip c.name = n →
        lowerStr (pyStrip c.domain) = "a.example.com") :
    entryGet ((runCookieOps true ttl cache ops) "b.example.com") n = none := by
  induction ops generalizing cache with
  | nil => exact hc
  | cons op t ih =>
    cases op with
    | store d cs tm =>
      simp only [runCookieOps]
      refine ih _ ?_ (fun d' cs' tm' hmem => hops d' cs' tm' (List.mem_cons_of_mem _ hmem))
      by_cases hd : d = "b.example.com"
      · subst hd
        refine store_cookies_entry_none _ _ _ _ _ _ hc (fun c hcmem hname => ?_)
        have hdom := hops "b.example.com" cs tm (List.mem_cons_self _ _) rfl c hcmem hname
        rw [hdom]
        exact ⟨by decide, by decide⟩
      · rw [store_cookies_other_domain _ _ _ _ _ _ _ (fun hbd => hd hbd.symm)]
        exact hc
    | header d tm =>
      simp only [runCookieOps]
      refine ih _ ?_ (fun d' cs' tm' hmem => hops d' cs' tm' (List.mem_cons_of_mem _ hmem))
      exact header_snd_entry_none _ _ _ _ _ _ hc

lemma header_some_shape (cache : CookieCache) (d : String) (t : Int) (s : String)
    (h : (get_cached_cookie_header true cache d t).1 = some s) :
    ∃ m e0, cache d = some (m, e0) ∧
      s = String.intercalate "; " ((sortPairs m).map fun p => p.1 ++ "=" ++ p.2) := by
  simp only [get_cached_cookie_header] at h
  cases hc : cache d with
  | none =>
    rw [hc] at h
    simp at h
  | some entry =>
    cases entry with
    | mk m e0 =>
      rw [hc] at h
      dsimp only at h
      split_ifs at h with h2
      · refine ⟨m, e0, rfl, ?_⟩
        first
          | exact h.symm
          | exact (Option.some.inj h).symm

/-- C7 amended: (a) a cookie whose own expiry is already in the past at the
time of the `_store_cookies` call is discarded by that call — its name is
absent from the stored entry (provided no later cookie of the same call
re-sets the same name); it is NOT true that such a cookie can never appear in
a later header, because a later store call may extend the entry expiry past
the cookie's own expiry (see the counterexample). (b) Cookies declaring
domain `a.example.com` are never emitted in a Cookie header produced for
`b.example.com`: over any sequence of store and header operations starting
from an empty cache — the stores may freely mix in arbitrary other cookies —
a name that is only ever supplied to `b.example.com`'s store calls with
declared domain `a.example.com` never occurs in `b.example.com`'s cache
entry, and every header produced for `b.example.com` is exactly the join of
that entry's sorted pairs, none of which bears that name. -/
theorem cookie_store_discards_expired_and_no_cross_domain :
    (∀ (ttl : Int) (cache : CookieCache) (domain : String) (now : Int)
        (cs1 cs2 : List SolverCookie) (c : SolverCookie) (e : Int),
      pyStrip c.name ≠ "" →
      (lowerStr (pyStrip c.domain) = "" ∨
        cookie_domain_matches domain (lowerStr (pyStrip c.domain)) = true) →
      c.expires = some e → 0 < e → e ≤ now →
      (∀ c' ∈ cs2, pyStrip c'.name ≠ pyStrip c.name) →
      entryGet (store_cookies true ttl cache domain (cs1 ++ c :: cs2) now domain)
        (pyStrip c.name) = none) ∧
    (∀ (ttl : Int) (ops : List CookieOp) (n : String),
      (∀ d cs tm, CookieOp.store d cs tm ∈ ops → d = "b.example.com" →
        ∀ c ∈ cs, pyStrip c.name = n →
          lowerStr (pyStrip c.domain) = "a.example.com") →
      entryGet ((runCookieOps true ttl (fun _ => none) ops) "b.example.com") n
          = none ∧
      (∀ (m : List (String × String)) (e0 : Int),
        (runCookieOps true ttl (fun _ => none) ops) "b.example.com" = some (m, e0) →
        ∀ p ∈ m, p.1 ≠ n) ∧
      (∀ (t : Int) (s : String),
        (get_cached_cookie_header true (runCookieOps true ttl (fun _ => none) ops)
          "b.example.com" t).1 = some s →
        ∃ m e0,
          (runCookieOps true ttl (fun _ => none) ops) "b.example.com" = some (m, e0) ∧
          s = String.intercalate "; " ((sortPairs m).map fun p => p.1 ++ "=" ++ p.2) ∧
          ∀ p ∈ sortPairs m, p.1 ≠ n)) := by
  constructor
  · intro ttl cache domain now cs1 cs2 c e h1 h2 h3 h4 h5 h6
    have hkey : ∀ acc : List (String × String) × Int,
        dictGet ((cs1 ++ c :: cs2).foldl (storeStep domain now) acc).1
          (pyStrip c.name) = none := by
      intro acc
      rw [List.foldl_append, List.foldl_cons,
        foldl_storeStep_preserves _ _ _ _ _ h6]
      exact storeStep_kills_expired _ _ _ _ _ h1 h2 h3 h4 h5
    have hne : (cs1 ++ c :: cs2).isEmpty = false := by cases cs1 <;> rfl
    simp only [store_cookies, hne, Bool.not_true, Bool.false_or, Bool.false_eq_true,
      if_false]
    split_ifs with hres
    · dsimp only
      rw [if_pos rfl]
      rfl
    · dsimp only
      rw [if_pos rfl]
      exact hkey _
  · intro ttl ops n hops
    have hmain := runCookieOps_entry_none ttl n ops (fun _ => none) rfl hops
    refine ⟨hmain, ?_, ?_⟩
    · intro m e0 hslot p hp
      rw [hslot] at hmain
      exact dictGet_none_keys m n hmain p hp
    · intro t s hsome
      obtain ⟨m, e0, hslot, hs⟩ := header_some_shape _ _ _ _ hsome
      refine ⟨m, e0, hslot, hs, ?_⟩
      intro p hp
      rw [hslot] at hmain
      exact dictGet_none_keys m n hmain p (mem_sortPairs p m hp)

/-- A mixed store to `b.example.com`: one of its own cookies next to a cookie
declared for `a.example.com`. -/
def crossDomainOps : List CookieOp :=
  [CookieOp.store "b.example.com"
    [(⟨"own", some "1", "", none⟩ : SolverCookie),
      (⟨"sess", some "v", "a.example.com", none⟩ : SolverCookie)] 0]

/-- Witness for C7 (amended): cookie `a` (own expiry 100) stored at time 100
is absent from the stored entry; and after a mixed store to `b.example.com`
(its own cookie `own` together with cookie `sess` declared for
`a.example.com`), the name `sess` is absent from `b.example.com`'s entry. -/
theorem cookie_store_discards_expired_and_no_cross_domain_witness :
    entryGet (store_cookies true 3600 (fun _ => none) "s.example"
        ([] ++ (⟨"a", some "1", "", some 100⟩ : SolverCookie) :: []) 100 "s.example")
        (pyStrip "a")
      = none ∧
    entryGet ((runCookieOps true 3600 (fun _ => none) crossDomainOps)
      "b.example.com") "sess" = none :=
  ⟨cookie_store_discards_expired_and_no_cross_domain.1 3600 (fun _ => none)
      "s.example" 100 [] [] _ 100 (by decide) (Or.inl (by decide)) rfl (by decide)
      (by decide) (by intro c' hc'; cases hc'),
    (cookie_store_discards_expired_and_no_cross_domain.2 3600 crossDomainOps "sess"
      (by
        intro d cs tm hmem hd c hc hname
        cases hmem with
        | head =>
          cases hc with
          | head => exact absurd hname (by decide)
          | tail _ h =>
            cases h with
            | head => decide
            | tail _ h2 => cases h2
        | tail _ h => cases h)).1⟩

/-
Embedding of `HttpClient._is_cloudflare_like` and `HttpClient._is_success_status`
from src/src/misc/http_client.py. Headers are an association list; the Python
dict comprehension lowercases keys and values with later duplicates winning.
-/

/-- The `strong_markers` tuple of `_is_cloudflare_like`. -/
def strongMarkers : List String :=
  ["just a moment", "attention required", "cf-chl", "__cf_chl",
    "cf browser verification", "cf-browser-verification", "challenge-platform",
    "cdn-cgi/challenge-platform", "checking your browser before accessing",
    "please stand by, while we are checking your browser",
    "ddos protection by cloudflare"]

/-- The `weak_markers` tuple of `_is_cloudflare_like`. -/
def weakMarkers : List String :=
  ["enable javascript and cookies to continue",
    "to work with the site requires support for javascript and cookies"]

/-- The lowercased header map lookup `header_map.get(key)` (comprehension
`{str(k).lower(): str(v).lower() ...}`; a later duplicate key overwrites). -/
def headerMapGet (headers : List (String × String)) (key : String) : Option String :=
  (((headers.map fun p => (lowerStr p.1, lowerStr p.2)).filter
      fun p => p.1 == key).getLast?).map fun p => p.2

/-- Static method `HttpClient._is_cloudflare_like`. A `none` status models the
Python `status_code=None`; an absent `headers` argument is the empty list. -/
def is_cloudflare_like (status_code : Option Int) (text : String)
    (headers : List (String × String)) : Bool :=
  let lower := lowerStr text
  let has_strong_marker := strongMarkers.any fun m => strContains lower m
  let has_weak_marker := weakMarkers.any fun m => strContains lower m
  let has_cloudflare_headers :=
    ((headerMapGet headers "cf-ray").getD "" ≠ "") ||
      strContains ((headerMapGet headers "server").getD "") "cloudflare"
  if strContains lower "challenge-platform" ||
      strContains lower "cdn-cgi/challenge-platform" then true
  else if (status_code == some 403 || status_code == some 429 ||
        status_code == some 503) &&
      (has_strong_marker || has_weak_marker || has_cloudflare_headers) then true
  else if status_code == some 200 && has_strong_marker then true
  else false

/-- Static method `HttpClient._is_success_status`: 2xx/3xx. -/
def is_success_status (status_code : Option Int) : Bool :=
  match status_code with
  | some s => decide (200 ≤ s) && decide (s < 400)
  | none => false

/-- C9: the challenge classifier (1) returns true whenever the lowered body
contains the `challenge-platform` marker, for every status and headers;
(2) returns true for status 200 when the lowered body contains a strong
phrase; (3) returns false when the body has a weak phrase but no strong
phrase and the status is outside {403, 429, 503} — weak phrases alone never
flag such responses, no matter what the headers say. -/
theorem cloudflare_classifier_cases (status_code : Option Int) (text : String)
    (headers : List (String × String)) :
    (strContains (lowerStr text) "challenge-platform" = true →
      is_cloudflare_like status_code text headers = true) ∧
    (status_code = some 200 →
      (strongMarkers.any fun m => strContains (lowerStr text) m) = true →
      is_cloudflare_like status_code text headers = true) ∧
    ((strongMarkers.any fun m => strContains (lowerStr text) m) = false →
      (weakMarkers.any fun m => strContains (lowerStr text) m) = true →
      status_code ≠ some 403 → status_code ≠ some 429 → status_code ≠ some 503 →
      is_cloudflare_like status_code text headers = false) := by
  refine ⟨?_, ?_, ?_⟩
  · intro h
    simp only [is_cloudflare_like, h, Bool.true_or, if_true]
  · intro hs hstrong
    subst hs
    simp only [is_cloudflare_like]
    split_ifs with h1 h2 h3
    · rfl
    · rfl
    · rfl
    · exfalso
      apply h3
      simp [hstrong]
  · intro hstrong hweak h403 h429 h503
    have hcp : strContains (lowerStr text) "challenge-platform" = false := by
      by_contra hc
      rw [Bool.not_eq_false] at hc
      have : (strongMarkers.any fun m => strContains (lowerStr text) m) = true := by
        refine List.any_eq_true.mpr ⟨"challenge-platform", by decide, hc⟩
      rw [this] at hstrong
      exact Bool.true_eq_false.mp hstrong
    have hcp2 : strContains (lowerStr text) "cdn-cgi/challenge-platform" = false := by
      by_contra hc
      rw [Bool.not_eq_false] at hc
      have : (strongMarkers.any fun m => strContains (lowerStr text) m) = true := by
        refine List.any_eq_true.mpr ⟨"cdn-cgi/challenge-platform", by decide, hc⟩
      rw [this] at hstrong
      exact Bool.true_eq_false.mp hstrong
    have htrio : (status_code == some 403 || status_code == some 429 ||
        status_code == some 503) = false := by
      cases status_code with
      | none => rfl
      | some s =>
        simp only [Bool.or_eq_false_iff, beq_eq_false_iff_ne, ne_eq, Option.some.injEq]
        exact ⟨⟨fun h => h403 (by rw [h]), fun h => h429 (by rw [h])⟩,
          fun h => h503 (by rw [h])⟩
    simp only [is_cloudflare_like, hcp, hcp2, Bool.or_self, Bool.false_or, htrio,
      Bool.false_and, hstrong, Bool.and_false, Bool.false_eq_true, if_false]

/-- Witness for C9: a challenge-platform body flags regardless of status; a
200 response with "Just a moment" flags; a 301 response whose body only says
to enable JavaScript does not flag even with a cloudflare server header. -/
theorem cloudflare_classifier_cases_witness :
    is_cloudflare_like none "x cdn-cgi/challenge-platform/h/b y" [] = true ∧
    is_cloudflare_like (some 200) "<title>Just a moment...</title>" [] = true ∧
    is_cloudflare_like (some 301)
      "please enable javascript and cookies to continue"
      [("server", "cloudflare")] = false :=
  ⟨(cloudflare_classifier_cases none "x cdn-cgi/challenge-platform/h/b y" []).1
      (by decide),
    (cloudflare_classifier_cases (some 200) "<title>Just a moment...</title>" []).2.1
      rfl (by decide),
    (cloudflare_classifier_cases (some 301)
        "please enable javascript and cookies to continue"
        [("server", "cloudflare")]).2.2
      (by decide) (by decide) (by decide) (by decide) (by decide)⟩

/-
Embedding of src/src/misc/flaresolverr_client.py (`FlareSolverrClient.get` and
its helpers). The `_post` RPC is an oracle indexed by the attempt number: each
attempt either yields a parsed JSON object or raises (the `except` branch),
where the raised-exception case carries whether the exception was an
httpx timeout/network error. Session caching only selects the session id sent
in the request payload (it never changes the classification of a response),
so the per-domain session cache is not tracked; a session-invalid message
still forces retriability exactly as in the source. Sleeps (backoff and the
queue-depth cooldown) and the request-slot guard only spend time.
-/

/-- The `solution` object of a FlareSolverr response
(`result.get("solution", {})` — every field may be absent). -/
structure FSolution where
  status : Option Int
  url : Option String
  response : Option String
  cookies : List SolverCookie
deriving DecidableEq

/-- A parsed FlareSolverr JSON response. -/
structure SolverResponse where
  status : Option String
  message : Option String
  solution : Option FSolution
deriving DecidableEq

/-- Outcome of one `_post` call: a parsed response, or a raised exception with
its text and whether it is an httpx timeout/network error. -/
inductive FSPostOutcome
  | resp (r : SolverResponse)
  | exn (text : String) (is_timeout_or_network : Bool)

/-- Dataclass `FlareSolverrResult`. -/
structure FlareSolverrResult where
  ok : Bool
  status_code : Option Int
  final_url : String
  body : String
  cookies : List SolverCookie
  message : String
  error : Option String
deriving DecidableEq

/-- The `retriable_markers` tuple of `_is_retriable_error`. -/
def retriableMarkers : List String :=
  ["timeout", "timed out", "too many requests", "rate limit", "429",
    "temporarily unavailable", "connection reset", "connection refused",
    "read error", "network", "econnreset", "connecterror", "readtimeout",
    "connecttimeout", "task queue depth"]

/-- Static method `FlareSolverrClient._is_retriable_error`. -/
def fs_is_retriable_error (error_text : String) : Bool :=
  retriableMarkers.any fun m => strContains (lowerStr error_text) m

/-- The session-invalid test applied to a message or exception text in
`FlareSolverrClient.get`. -/
def fs_is_session_error (t : String) : Bool :=
  strContains (lowerStr t) "session" &&
    (strContains (lowerStr t) "not found" ||
      strContains (lowerStr t) "does not exist" ||
      strContains (lowerStr t) "invalid" ||
      strContains (lowerStr t) "destroyed")

/-- The attempt loop of `FlareSolverrClient.get`: `attempt` is the 1-based
attempt counter and `remaining` the number of attempts left
(`remaining = max_attempts - attempt + 1`; `attempt < max_attempts` iff
`remaining > 1`). -/
def fs_get_loop (url : String) (post : Nat → FSPostOutcome) :
    Nat → Nat → FlareSolverrResult
  | _, 0 =>
    { ok := false, status_code := none, final_url := url, body := "",
      cookies := [], message := "request-failed", error := some "retry-exhausted" }
  | attempt, remaining + 1 =>
    match post attempt with
    | FSPostOutcome.resp r =>
      if r.status = some "ok" then
        let solution := r.solution.getD ⟨none, none, none, []⟩
        { ok := true, status_code := solution.status,
          final_url := solution.url.getD url,
          body := solution.response.getD "",
          cookies := solution.cookies,
          message := r.message.getD "", error := none }
      else
        let message := r.message.getD "unknown-error"
        let is_retriable := fs_is_retriable_error message || fs_is_session_error message
        if is_retriable && remaining != 0 then
          fs_get_loop url post (attempt + 1) remaining
        else
          { ok := false, status_code := none, final_url := url, body := "",
            cookies := [], message := message, error := some message }
    | FSPostOutcome.exn text is_tn =>
      let is_retriable :=
        (fs_is_retriable_error text || is_tn) || fs_is_session_error text
      if is_retriable && remaining != 0 then
        fs_get_loop url post (attempt + 1) remaining
      else
        { ok := false, status_code := none, final_url := url, body := "",
          cookies := [], message := "request-failed", error := some text }

/-- Method `FlareSolverrClient.get` (with `max_attempts = max(1, retry_attempts)`
from the constructor's `BackoffPolicy`). -/
def fs_get (url : String) (post : Nat → FSPostOutcome) (retry_attempts : Int) :
    FlareSolverrResult :=
  fs_get_loop url post 1 (max 1 retry_attempts).toNat

/-- The failing response of C3: `status=error`, message "Challenge not
detected!", with a present solution payload. -/
def challengeNotDetectedResp : SolverResponse :=
  { status := some "error"
    message := some "Challenge not detected!"
    solution :=
      some ⟨some 200, some "https://target.example/store", some "<html>ok</html>", []⟩ }

/-- C3: the code treats a `status=error` / "Challenge not detected!" response
with a present solution as a plain failure — `FlareSolverrClient.get` returns
`ok=false` with no status code and the message as the error, not the
solution-backed success that the repository's own test
(`test_flaresolverr_no_challenge_with_solution_is_success`) and the
specification demand. -/
theorem fs_challenge_not_detected_is_failure :
    fs_get "https://target.example/store"
        (fun _ => FSPostOutcome.resp challengeNotDetectedResp) 3 =
      { ok := false, status_code := none, final_url := "https://target.example/store",
        body := "", cookies := [], message := "Challenge not detected!",
        error := some "Challenge not detected!" } ∧
    (fs_get "https://target.example/store"
        (fun _ => FSPostOutcome.resp challengeNotDetectedResp) 3).ok = false := by
  refine ⟨by decide, by decide⟩

/-
Embedding of `HttpClient.get` and `HttpClient._direct_get` from
src/src/misc/http_client.py. Network responses are oracles indexed by the
1-based attempt number: `DirectOutcome` is what one `httpx` GET produces (a
response, or a raised exception), and the FlareSolverr tier yields a
`FlareSolverrResult` (with the measured elapsed milliseconds) per attempt.
`normalize_url` / `extract_domain` (src/src/misc/url_normalizer.py) are pure
string functions passed in as parameters — the claims quantify over them. The
proxy selection only changes which route the oracle answers for; backoff
sleeps, rate-limiter waits and cooldowns only spend time or move rate-limiter
timestamps, and are recorded as events so that "no side effect" claims are
expressible.
-/

/-- Dataclass `FetchResult`. -/
structure FetchResult where
  ok : Bool
  requested_url : String
  final_url : String
  status_code : Option Int
  text : String
  headers : List (String × String)
  tier : String
  elapsed_ms : Int
  error : Option String
deriving DecidableEq

/-- What one direct `httpx` GET does: a response (with the cookie jar that
`_response_cookies` extracts) or a raised exception. -/
inductive DirectOutcome
  | response (status : Int) (final_url : String) (text : String)
      (headers : List (String × String)) (cookies : List SolverCookie)
      (elapsed_ms : Int)
  | failure (error : String) (elapsed_ms : Int)

/-- The configuration slice of `HttpClient` that `get` reads. -/
structure HttpGetCfg where
  max_attempts : Int
  retry_status_codes : List Int
  flaresolverr_enabled : Bool
  cookie_reuse_enabled : Bool
  cookie_reuse_ttl_seconds : Int
  ratelimit_cooldown_seconds : Int
  default_cooldown_seconds : Int

/-- Observable side effects of one `HttpClient.get` call, in order. -/
inductive FetchEvent
  | rateWaitSlot (url : String)
  | cookieLookup (domain : String)
  | directFetch
  | fsFetch
  | cooldownApplied (url : String) (seconds : Int)
  | backoffSleep
  | cookiesCleared (domain : String)
  | breakerSuccess (domain : String)
  | breakerFailure (domain : String)
deriving DecidableEq

/-- Python `a or b` for optional strings (`None` and `""` are falsy). -/
def pyOrOpt (a b : Option String) : Option String :=
  match a with
  | some s => if s = "" then b else some s
  | none => b

/-- Python `a or b` for strings (`""` is falsy). -/
def pyOrS (a b : String) : String := if a = "" then b else a

/-- Python truthiness of an optional string. -/
def pyTruthyStr (s : Option String) : Bool :=
  match s with
  | some v => v != ""
  | none => false

/-- Python truthiness of an optional int (`None` and `0` are falsy). -/
def pyTruthyStatus (s : Option Int) : Bool :=
  match s with
  | some v => v != 0
  | none => false

/-- Python `status in codes` for an optional status. -/
def statusIn (s : Option Int) (codes : List Int) : Bool :=
  match s with
  | some v => codes.contains v
  | none => false

/-- Method `HttpClient._direct_get`: wraps the oracle outcome as the source
does — a response gives `ok=True` (any status) and stores the response
cookies for the response domain; an exception gives `ok=False` with no
status. -/
def direct_get (cookie_reuse_enabled : Bool) (cookie_reuse_ttl_seconds : Int)
    (extract_domain : String → String) (cache : CookieCache) (url : String)
    (now : Int) (o : DirectOutcome) : FetchResult × CookieCache :=
  match o with
  | DirectOutcome.response st fu tx hd cks el =>
    let response_domain := pyOrS (extract_domain fu) (extract_domain url)
    (⟨true, url, fu, some st, tx, hd, "direct", el, none⟩,
      store_cookies cookie_reuse_enabled cookie_reuse_ttl_seconds cache
        response_domain cks now)
  | DirectOutcome.failure e el =>
    (⟨false, url, url, none, "", [], "direct", el, some e⟩, cache)

/-- The loop-carried state of `HttpClient.get` (`last_*` trackers plus the
shared mutable objects and the event log). -/
structure GetLoopSt where
  brk : CircuitBreaker
  cache : CookieCache
  events : List FetchEvent
  last_error : Option String
  last_status_code : Option Int
  last_final_url : String
  last_tier : String
  last_elapsed_ms : Int

/-- Result of one loop iteration: an early `return`, or fall-through to the
retry decision with the computed `should_retry`. -/
inductive AttemptOut
  | early (r : FetchResult) (st : GetLoopSt)
  | proceed (st : GetLoopSt) (should_retry : Bool)

/-- The 4xx-other-than-429 classification applied after the loop. -/
def definitive_4xx (s : Option Int) : Bool :=
  match s with
  | some v => decide (400 ≤ v) && decide (v < 500) && v != 429
  | none => false

/-- The code after the FlareSolverr block in one iteration of `HttpClient.get`
(default cooldown for retryable direct statuses, `direct_reason`, and the
`last_error` fallback chain). -/
def http_attempt_tail (cfg : HttpGetCfg) (url : String) (direct : FetchResult)
    (dcl : Bool) (should_retry : Bool) (st : GetLoopSt) : AttemptOut :=
  let st1 : GetLoopSt :=
    if pyTruthyStatus direct.status_code &&
        statusIn direct.status_code cfg.retry_status_codes then
      { st with
        events :=
          st.events ++ [FetchEvent.cooldownApplied url cfg.default_cooldown_seconds] }
    else st
  let direct_reason : Option String :=
    pyOrOpt direct.error
      (match direct.status_code with
        | some s =>
          some (if dcl then "cloudflare-like-challenge" else "status=" ++ toString s)
        | none => none)
  AttemptOut.proceed
    { st1 with
      last_error :=
        pyOrOpt (pyOrOpt st1.last_error direct_reason) (some "fetch-failed") }
    should_retry

/-- The FlareSolverr block of one iteration of `HttpClient.get`. -/
def http_attempt_fs (cfg : HttpGetCfg) (url domain : String) (now : Int)
    (direct : FetchResult) (dcl : Bool) (fsr : FlareSolverrResult)
    (fs_elapsed : Int) (should_retry : Bool) (st : GetLoopSt) : AttemptOut :=
  let should_try := cfg.flaresolverr_enabled &&
    (direct.status_code.isNone || dcl || statusIn direct.status_code [403, 429] ||
      statusIn direct.status_code cfg.retry_status_codes)
  if should_try then
    let st1 : GetLoopSt := { st with events := st.events ++ [FetchEvent.fsFetch] }
    let st2 : GetLoopSt :=
      if fsr.ok then
        { st1 with
          cache := store_cookies cfg.cookie_reuse_enabled
            cfg.cookie_reuse_ttl_seconds st1.cache domain fsr.cookies now }
      else st1
    let st3 : GetLoopSt :=
      match fsr.status_code with
      | some _ =>
        { st2 with
          last_status_code := fsr.status_code
          last_final_url := pyOrS fsr.final_url st2.last_final_url
          last_tier := "flaresolverr"
          last_elapsed_ms := fs_elapsed }
      | none => st2
    let fscl := is_cloudflare_like fsr.status_code fsr.body []
    if fsr.ok && is_success_status fsr.status_code && !fscl then
      AttemptOut.early
        ⟨true, url, fsr.final_url, fsr.status_code, fsr.body, [], "flaresolverr",
          fs_elapsed, none⟩
        { st3 with
          brk := breaker_record_success st3.brk domain
          events := st3.events ++ [FetchEvent.breakerSuccess domain] }
    else
      let fs_reason : String :=
        match pyOrOpt fsr.error none with
        | some s => s
        | none =>
          if fscl then "cloudflare-like-challenge"
          else
            match fsr.status_code with
            | some s =>
              if !is_success_status (some s) then "status=" ++ toString s
              else pyOrS fsr.message "flaresolverr-failed"
            | none => pyOrS fsr.message "flaresolverr-failed"
      let st4 : GetLoopSt := { st3 with last_error := some fs_reason }
      let sr :=
        if fscl || statusIn fsr.status_code cfg.retry_status_codes ||
            (fsr.status_code.isNone && !fsr.ok) then true
        else if (match fsr.status_code with
            | some s => decide (400 ≤ s) && decide (s < 500) && s != 429
            | none => false) then false
        else should_retry
      http_attempt_tail cfg url direct dcl sr st4
  else http_attempt_tail cfg url direct dcl should_retry st

/-- One full iteration of the attempt loop of `HttpClient.get` (rate-limiter
wait, cookie lookup, direct fetch, classification, escalation). -/
def http_attempt_step (cfg : HttpGetCfg) (url domain : String) (now : Int)
    (d : DirectOutcome) (fsr : FlareSolverrResult) (fs_elapsed : Int)
    (extract_domain : String → String) (st : GetLoopSt) : AttemptOut :=
  let st1 : GetLoopSt := { st with events := st.events ++ [FetchEvent.rateWaitSlot url] }
  let ch := get_cached_cookie_header cfg.cookie_reuse_enabled st1.cache domain now
  let cached_cookie_header := ch.1
  let st2 : GetLoopSt :=
    { st1 with
      cache := ch.2
      events := st1.events ++ [FetchEvent.cookieLookup domain] }
  let dg := direct_get cfg.cookie_reuse_enabled cfg.cookie_reuse_ttl_seconds
    extract_domain st2.cache url now d
  let direct := dg.1
  let st3 : GetLoopSt :=
    { st2 with
      cache := dg.2
      events := st2.events ++ [FetchEvent.directFetch] }
  match direct.status_code with
  | some s =>
    let dcl := is_cloudflare_like (some s) direct.text direct.headers
    let st4 : GetLoopSt :=
      { st3 with
        last_status_code := some s
        last_final_url := pyOrS direct.final_url st3.last_final_url
        last_tier := direct.tier
        last_elapsed_ms := direct.elapsed_ms }
    if s = 429 then
      http_attempt_fs cfg url domain now direct dcl fsr fs_elapsed true
        { st4 with
          events :=
            st4.events ++ [FetchEvent.cooldownApplied url cfg.ratelimit_cooldown_seconds] }
    else if !dcl && is_success_status (some s) then
      AttemptOut.early direct
        { st4 with
          brk := breaker_record_success st4.brk domain
          events := st4.events ++ [FetchEvent.breakerSuccess domain] }
    else
      let st5 : GetLoopSt :=
        if dcl && pyTruthyStr cached_cookie_header then
          { st4 with
            cache := fun d' => if d' = domain then none else st4.cache d'
            events := st4.events ++ [FetchEvent.cookiesCleared domain] }
        else st4
      http_attempt_fs cfg url domain now direct dcl fsr fs_elapsed
        (dcl || statusIn (some s) cfg.retry_status_codes) st5
  | none =>
    http_attempt_fs cfg url domain now direct false fsr fs_elapsed
      (pyTruthyStr direct.error) st3

/-- Everything `HttpClient.get` returns and mutates. -/
structure GetOutcome where
  result : FetchResult
  brk : CircuitBreaker
  cache : CookieCache
  events : List FetchEvent

/-- The code after the attempt loop of `HttpClient.get`: the breaker policy on
the last known status and the final `ok=False` result. -/
def http_get_finalize (url domain : String) (now : Int) (st : GetLoopSt) : GetOutcome :=
  { result :=
      { ok := false, requested_url := url, final_url := st.last_final_url,
        status_code := st.last_status_code, text := "", headers := [],
        tier := st.last_tier, elapsed_ms := st.last_elapsed_ms,
        error := pyOrOpt st.last_error (some "fetch-failed") }
    brk :=
      if definitive_4xx st.last_status_code then breaker_record_success st.brk domain
      else breaker_record_failure st.brk domain now
    cache := st.cache
    events := st.events ++
      [if definitive_4xx st.last_status_code then FetchEvent.breakerSuccess domain
        else FetchEvent.breakerFailure domain] }

/-- The attempt loop of `HttpClient.get`: `attempt` is the 1-based counter,
`remaining` the attempts left (`attempt < max_attempts` iff `remaining > 1`;
the loop falls through to the finalizer when the attempts are exhausted or
`should_retry` is false). -/
def http_get_loop (cfg : HttpGetCfg) (url domain : String) (now : Int)
    (direct_oracle : Nat → DirectOutcome)
    (fs_oracle : Nat → FlareSolverrResult × Int)
    (extract_domain : String → String) :
    Nat → Nat → GetLoopSt → GetOutcome
  | _, 0, st => http_get_finalize url domain now st
  | attempt, remaining + 1, st =>
    match http_attempt_step cfg url domain now (direct_oracle attempt)
        (fs_oracle attempt).1 (fs_oracle attempt).2 extract_domain st with
    | AttemptOut.early r st' => ⟨r, st'.brk, st'.cache, st'.events⟩
    | AttemptOut.proceed st' sr =>
      if sr then
        if remaining = 0 then http_get_finalize url domain now st'
        else
          http_get_loop cfg url domain now direct_oracle fs_oracle extract_domain
            (attempt + 1) remaining
            { st' with events := st'.events ++ [FetchEvent.backoffSleep] }
      else http_get_finalize url domain now st'

/-- Method `HttpClient.get`. -/
def http_get (cfg : HttpGetCfg) (normalize_url extract_domain : String → String)
    (brk : CircuitBreaker) (cache : CookieCache) (url : String) (now : Int)
    (direct_oracle : Nat → DirectOutcome)
    (fs_oracle : Nat → FlareSolverrResult × Int) : GetOutcome :=
  let normalized_url := normalize_url url
  let domain := extract_domain normalized_url
  let ab := breaker_allow brk domain now
  if ab.1 then
    http_get_loop cfg normalized_url domain now direct_oracle fs_oracle
      extract_domain 1 cfg.max_attempts.toNat
      ⟨ab.2, cache, [], none, none, normalized_url, "failed", 0⟩
  else
    { result :=
        { ok := false, requested_url := normalized_url, final_url := normalized_url,
          status_code := none, text := "", headers := [], tier := "circuit-breaker",
          elapsed_ms := 0, error := some ("circuit-open:" ++ domain) }
      brk := ab.2, cache := cache, events := [] }

lemma http_attempt_tail_proceed {cfg : HttpGetCfg} {url : String}
    {direct : FetchResult} {dcl should_retry : Bool} {st : GetLoopSt}
    {r : FetchResult} {st' : GetLoopSt}
    (h : http_attempt_tail cfg url direct dcl should_retry st =
      AttemptOut.early r st') : False := by
  simp only [http_attempt_tail] at h
  exact AttemptOut.noConfusion h

lemma http_attempt_fs_early_ok {cfg : HttpGetCfg} {url domain : String}
    {now : Int} {direct : FetchResult} {dcl : Bool} {fsr : FlareSolverrResult}
    {fs_elapsed : Int} {should_retry : Bool} {st : GetLoopSt}
    {r : FetchResult} {st' : GetLoopSt}
    (h : http_attempt_fs cfg url domain now direct dcl fsr fs_elapsed
      should_retry st = AttemptOut.early r st') : r.ok = true := by
  simp only [http_attempt_fs] at h
  split_ifs at h <;> first
    | exact absurd h (fun hc => http_attempt_tail_proceed hc)
    | (injection h with hX hY; rw [← hX])

lemma http_attempt_step_early_ok {cfg : HttpGetCfg} {url domain : String}
    {now : Int} {d : DirectOutcome} {fsr : FlareSolverrResult} {fs_elapsed : Int}
    {eD : String → String} {st : GetLoopSt} {r : FetchResult} {st' : GetLoopSt}
    (h : http_attempt_step cfg url domain now d fsr fs_elapsed eD st =
      AttemptOut.early r st') : r.ok = true := by
  cases d with
  | response s fu tx hd cks el =>
    simp only [http_attempt_step, direct_get] at h
    split_ifs at h <;> first
      | exact http_attempt_fs_early_ok h
      | (injection h with hX hY; rw [← hX])
  | failure e el =>
    simp only [http_attempt_step, direct_get] at h
    exact http_attempt_fs_early_ok h

lemma http_get_finalize_last_event (url domain : String) (now : Int)
    (st : GetLoopSt) :
    (http_get_finalize url domain now st).events.getLast? =
      some (if definitive_4xx (http_get_finalize url domain now st).result.status_code
        then FetchEvent.breakerSuccess domain
        else FetchEvent.breakerFailure domain) := by
  simp only [http_get_finalize]
  rw [List.getLast?_concat]

lemma http_get_loop_last_event (cfg : HttpGetCfg) (url domain : String)
    (now : Int) (dO : Nat → DirectOutcome)
    (fsO : Nat → FlareSolverrResult × Int) (eD : String → String) :
    ∀ (remaining attempt : Nat) (st : GetLoopSt),
    (http_get_loop cfg url domain now dO fsO eD attempt remaining st).result.ok
        = false →
    (http_get_loop cfg url domain now dO fsO eD attempt remaining st).events.getLast?
      = some
        (if definitive_4xx
            (http_get_loop cfg url domain now dO fsO eD attempt remaining
              st).result.status_code
          then FetchEvent.breakerSuccess domain
          else FetchEvent.breakerFailure domain) := by
  intro remaining
  induction remaining with
  | zero =>
    intro attempt st _
    exact http_get_finalize_last_event url domain now st
  | succ n ih =>
    intro attempt st hok
    cases hstep : http_attempt_step cfg url domain now (dO attempt)
        (fsO attempt).1 (fsO attempt).2 eD st with
    | early r st' =>
      simp only [http_get_loop, hstep] at hok ⊢
      exact absurd (http_attempt_step_early_ok hstep)
        (by simp only [hok]; exact fun hc => Bool.false_ne_true hc)
    | proceed st' sr =>
      simp only [http_get_loop, hstep] at hok ⊢
      by_cases h1 : sr = true
      · by_cases h2 : n = 0
        · rw [if_pos h1, if_pos h2] at hok ⊢
          exact http_get_finalize_last_event url domain now st'
        · rw [if_pos h1, if_neg h2] at hok ⊢
          exact ih (attempt + 1) _ hok
      · rw [if_neg h1] at hok ⊢
        exact http_get_finalize_last_event url domain now st'

lemma breaker_allow_false_state (cb : CircuitBreaker) (d : String) (now : Int)
    (h : (breaker_allow cb d now).1 = false) :
    (breaker_allow cb d now).2 = cb := by
  simp only [breaker_allow] at h ⊢
  split_ifs at h ⊢ <;> simp_all

/-- C6: when the circuit breaker does not allow the domain of the (normalized)
URL, `HttpClient.get` returns immediately with `ok=false`,
`tier="circuit-breaker"`, `error="circuit-open:<domain>"`, an unchanged
breaker and cookie cache, and an empty event log — no rate-limiter wait, no
cookie lookup, no fetch tier, no cooldown and no breaker update happens. -/
theorem http_get_circuit_open_short_circuit (cfg : HttpGetCfg)
    (nU eD : String → String) (brk : CircuitBreaker) (cache : CookieCache)
    (url : String) (now : Int) (dO : Nat → DirectOutcome)
    (fsO : Nat → FlareSolverrResult × Int)
    (h : (breaker_allow brk (eD (nU url)) now).1 = false) :
    http_get cfg nU eD brk cache url now dO fsO =
      { result :=
          { ok := false, requested_url := nU url, final_url := nU url,
            status_code := none, text := "", headers := [],
            tier := "circuit-breaker", elapsed_ms := 0,
            error := some ("circuit-open:" ++ eD (nU url)) }
        brk := brk, cache := cache, events := [] } := by
  simp only [http_get]
  rw [if_neg (by rw [h]; exact Bool.false_ne_true)]
  rw [breaker_allow_false_state _ _ _ h]

/-- Breaker whose circuit for `example.com` is open (5 failures at threshold
5, opened recently) — the witness input for C6. -/
def openBreaker : CircuitBreaker :=
  { failure_threshold := 5
    cooldown_seconds := 180
    state := fun d => if d = "example.com" then some (5, 900) else none }

/-- Config used by the concrete `http_get` scenarios. -/
def cfgW : HttpGetCfg :=
  { max_attempts := 3
    retry_status_codes := [408, 425, 429, 500, 502, 503, 504]
    flaresolverr_enabled := true
    cookie_reuse_enabled := true
    cookie_reuse_ttl_seconds := 1800
    ratelimit_cooldown_seconds := 90
    default_cooldown_seconds := 45 }

/-- Identity URL normalization for the concrete scenarios. -/
def idUrl : String → String := fun s => s

/-- Domain extraction for the concrete scenarios. -/
def exampleDomain : String → String := fun _ => "example.com"

/-- Direct oracle of the 404 scenario: every attempt yields a plain 404 page
with no challenge markers. -/
def direct404 : Nat → DirectOutcome :=
  fun _ =>
    DirectOutcome.response 404 "https://example.com/final-missing"
      "<html>missing</html>" [] [] 10

/-- FlareSolverr oracle that is never consulted in the scenarios. -/
def fsIdle : Nat → FlareSolverrResult × Int :=
  fun _ => (⟨false, none, "", "", [], "", none⟩, 0)

/-- Witness for C6: at time 1000 (cooldown not yet elapsed) the call
short-circuits with the circuit-breaker result and no events. -/
theorem http_get_circuit_open_short_circuit_witness :
    http_get cfgW idUrl exampleDomain openBreaker (fun _ => none)
        "https://example.com/x" 1000 direct404 fsIdle =
      { result :=
          { ok := false, requested_url := idUrl "https://example.com/x",
            final_url := idUrl "https://example.com/x", status_code := none,
            text := "", headers := [], tier := "circuit-breaker", elapsed_ms := 0,
            error := some ("circuit-open:" ++
              exampleDomain (idUrl "https://example.com/x")) }
        brk := openBreaker, cache := fun _ => none, events := [] } :=
  http_get_circuit_open_short_circuit cfgW idUrl exampleDomain openBreaker
    (fun _ => none) "https://example.com/x" 1000 direct404 fsIdle (by decide)

/-- C1: whenever `HttpClient.get` falls out of its attempt loop with a failure
result (every early return has `ok=true`, and the circuit-breaker short
circuit is the only other `ok=false` source), the very last side effect is the
breaker update chosen by classifying the returned (= last known) status code:
a success exactly when it is a definitive 4xx other than 429, a failure
otherwise. In particular a direct 404 with no challenge markers yields
`ok=false, tier="direct", statusCode=404` and a circuit-breaker success. -/
theorem http_get_exhausted_breaker_policy :
    (∀ (cfg : HttpGetCfg) (nU eD : String → String) (brk : CircuitBreaker)
        (cache : CookieCache) (url : String) (now : Int)
        (dO : Nat → DirectOutcome) (fsO : Nat → FlareSolverrResult × Int),
      (http_get cfg nU eD brk cache url now dO fsO).result.ok = false →
      (http_get cfg nU eD brk cache url now dO fsO).result.tier ≠ "circuit-breaker" →
      (http_get cfg nU eD brk cache url now dO fsO).events.getLast? =
        some (if definitive_4xx
            (http_get cfg nU eD brk cache url now dO fsO).result.status_code
          then FetchEvent.breakerSuccess (eD (nU url))
          else FetchEvent.breakerFailure (eD (nU url)))) ∧
    ((http_get cfgW idUrl exampleDomain
        { failure_threshold := 5, cooldown_seconds := 180, state := fun _ => none }
        (fun _ => none) "https://example.com/missing" 1000
        direct404 fsIdle).result.ok = false ∧
      (http_get cfgW idUrl exampleDomain
        { failure_threshold := 5, cooldown_seconds := 180, state := fun _ => none }
        (fun _ => none) "https://example.com/missing" 1000
        direct404 fsIdle).result.tier = "direct" ∧
      (http_get cfgW idUrl exampleDomain
        { failure_threshold := 5, cooldown_seconds := 180, state := fun _ => none }
        (fun _ => none) "https://example.com/missing" 1000
        direct404 fsIdle).result.status_code = some 404 ∧
      (http_get cfgW idUrl exampleDomain
        { failure_threshold := 5, cooldown_seconds := 180, state := fun _ => none }
        (fun _ => none) "https://example.com/missing" 1000
        direct404 fsIdle).events.getLast? =
        some (FetchEvent.breakerSuccess "example.com")) := by
  constructor
  · intro cfg nU eD brk cache url now dO fsO hok htier
    simp only [http_get] at hok htier ⊢
    by_cases hab : (breaker_allow brk (eD (nU url)) now).1 = true
    · simp only [hab, eq_self_iff_true, if_true] at hok htier ⊢
      exact http_get_loop_last_event cfg (nU url) (eD (nU url)) now dO fsO eD
        cfg.max_attempts.toNat 1 _ hok
    · simp only [hab, if_false] at htier
      exact absurd rfl htier
  · refine ⟨by decide, by decide, by decide, by decide⟩

/-- Witness for C1: the 404 scenario instantiates the quantified part, with
both hypotheses discharged by evaluation. -/
theorem http_get_exhausted_breaker_policy_witness :
    (http_get cfgW idUrl exampleDomain
        { failure_threshold := 5, cooldown_seconds := 180, state := fun _ => none }
        (fun _ => none) "https://example.com/missing" 1000
        direct404 fsIdle).events.getLast? =
      some (if definitive_4xx
          (http_get cfgW idUrl exampleDomain
            { failure_threshold := 5, cooldown_seconds := 180, state := fun _ => none }
            (fun _ => none) "https://example.com/missing" 1000
            direct404 fsIdle).result.status_code
        then FetchEvent.breakerSuccess (exampleDomain (idUrl "https://example.com/missing"))
        else FetchEvent.breakerFailure (exampleDomain (idUrl "https://example.com/missing"))) :=
  http_get_exhausted_breaker_policy.1 cfgW idUrl exampleDomain
    { failure_threshold := 5, cooldown_seconds := 180, state := fun _ => none }
    (fun _ => none) "https://example.com/missing" 1000 direct404 fsIdle
    (by decide) (by decide)
